import Mathlib

/-
Verification of the social-media backend (src/server.js) against its
specification.  The server is a thin Express + MongoDB CRUD layer; we give a
shallow embedding: the two Mongo collections become lists of records in a
`Store`, each route handler becomes a pure function from a store (plus request
data) to a response value and an updated store.  External primitives (bcrypt,
jwt) are modelled as transparent records that retain exactly the data the
routes feed them.
-/

/-- Model of a bcrypt hash: `bcrypt.hash(password, 10)` salts and hashes the
password with cost factor 10.  We keep the inputs transparent so that the
cost factor and the salting are observable, and so that
`bcrypt.compare` can be modelled as comparison with the original password. -/
structure BcryptHash where
  pw : String
  cost : Nat
  salt : Nat
deriving Repr, DecidableEq

/-- Model of `bcrypt.hash(password, cost)` with the (random) salt made an
explicit parameter. -/
def bcryptHash (password : String) (cost : Nat) (salt : Nat) : BcryptHash :=
  ⟨password, cost, salt⟩

/-- Model of `bcrypt.compare(password, hash)`. -/
def bcryptCompare (password : String) (h : BcryptHash) : Bool :=
  password == h.pw

/-- Model of a signed JWT: `jwt.sign({ id }, secret, { expiresIn: '1h' })`
produces a token embedding the id, the signing secret and a 3600-second
expiry. -/
structure Token where
  id : Nat
  expiresInSeconds : Nat
  secret : String
deriving Repr, DecidableEq

/-- The `privacy` enum of PostSchema: `['Public', 'Friends', 'Private']`. -/
inductive Privacy where
  | Public
  | Friends
  | Private
deriving Repr, DecidableEq

/-- One entry of PostSchema's `comments` array: `{ userId, text }`. -/
structure Comment where
  userId : Nat
  text : String
deriving Repr, DecidableEq

/-- UserSchema: username, email, password (bcrypt hash), profilePicture
(default ""), friends (list of user ids).  `id` models Mongo's `_id`. -/
structure User where
  id : Nat
  username : String
  email : String
  password : BcryptHash
  profilePicture : String
  friends : List Nat
deriving Repr, DecidableEq

/-- PostSchema: owner `userId`, content, image (default ""), likes (list of
user ids), comments, privacy (default Public).  `id` models Mongo's `_id`. -/
structure Post where
  id : Nat
  userId : Nat
  content : String
  image : String
  likes : List Nat
  comments : List Comment
  privacy : Privacy
deriving Repr, DecidableEq

/-- The database: the User and Post collections. -/
structure Store where
  users : List User
  posts : List Post
deriving Repr, DecidableEq

/-- `User.findById`: first user whose `_id` matches. -/
def findUser (users : List User) (i : Nat) : Option User :=
  users.find? (fun u => u.id == i)

/-- `Post.findById`: first post whose `_id` matches. -/
def findPost (posts : List Post) (i : Nat) : Option Post :=
  posts.find? (fun p => p.id == i)

/-- Persisting a modified user document (`user.save()` /
`findByIdAndUpdate`): the document with its `_id` is replaced. -/
def setUser (users : List User) (u : User) : List User :=
  users.map (fun v => if v.id == u.id then u else v)

/-- Persisting a modified post document (`post.save()` /
`findByIdAndUpdate`): the document with its `_id` is replaced. -/
def setPost (posts : List Post) (p : Post) : List Post :=
  posts.map (fun q => if q.id == p.id then p else q)

/-- Response of POST /signup: HTTP status plus the message / error string. -/
structure SignupResp where
  status : Nat
  body : String
deriving Repr, DecidableEq

/-- POST /signup: rejects a duplicate email (400), then a duplicate username
(400); otherwise stores a new user with `bcrypt.hash(password, 10)` as
password, default profilePicture "" and empty friends, and answers 201.
`freshId` is the `_id` Mongo assigns, `salt` the salt bcrypt draws. -/
def signup (s : Store) (username email password : String)
    (freshId salt : Nat) : SignupResp × Store :=
  if (s.users.find? (fun u => u.email == email)).isSome then
    (⟨400, "Email already registered"⟩, s)
  else if (s.users.find? (fun u => u.username == username)).isSome then
    (⟨400, "Username already taken"⟩, s)
  else
    (⟨201, "User registered successfully"⟩,
     { s with users := s.users ++
        [⟨freshId, username, email, bcryptHash password 10 salt, "", []⟩] })

/-- Response of POST /login. -/
inductive LoginResp where
  /-- 400 `{ error: 'User not found' }` -/
  | userNotFound
  /-- 400 `{ error: 'Invalid credentials' }` -/
  | invalidCredentials
  /-- 200 `{ token, user }` — the full user document, password included. -/
  | ok (token : Token) (user : User)
deriving Repr, DecidableEq

/-- HTTP status of a login response. -/
def LoginResp.status : LoginResp → Nat
  | .userNotFound => 400
  | .invalidCredentials => 400
  | .ok _ _ => 200

/-- POST /login: finds the user by email, compares the password against the
stored bcrypt hash, and on success signs a token `{ id: user._id }` with a
1-hour expiry and returns it together with the full user document. -/
def login (s : Store) (email password secret : String) : LoginResp :=
  match s.users.find? (fun u => u.email == email) with
  | none => .userNotFound
  | some u =>
    if bcryptCompare password u.password then
      .ok ⟨u.id, 3600, secret⟩ u
    else
      .invalidCredentials

/-- The owner projection `populate('userId', 'username')` attaches to each
listed post. -/
structure PopulatedOwner where
  username : String
deriving Repr, DecidableEq

/-- A post as returned by GET /posts: the post with its `userId` replaced by
the populated owner (`none` when the referenced user no longer exists, the
`null` mongoose produces for a dangling reference). -/
structure PopulatedPost where
  id : Nat
  owner : Option PopulatedOwner
  content : String
  image : String
  likes : List Nat
  comments : List Comment
  privacy : Privacy
deriving Repr, DecidableEq

/-- `populate('userId', 'username')` applied to one post. -/
def populatePost (users : List User) (p : Post) : PopulatedPost :=
  { id := p.id
    owner := (findUser users p.userId).map (fun u => ⟨u.username⟩)
    content := p.content
    image := p.image
    likes := p.likes
    comments := p.comments
    privacy := p.privacy }

/-- GET /posts: `Post.find().populate('userId', 'username')` — every stored
post, no filter, no pagination. -/
def listPosts (s : Store) : List PopulatedPost :=
  s.posts.map (populatePost s.users)

/-- Response of POST /post/like. -/
inductive LikeResp where
  /-- 200 — the updated post document. -/
  | ok (post : Post)
  /-- 500 — the handler read `post.likes` on a `null` document; the thrown
  TypeError reaches the centralized error middleware, which answers 500. -/
  | serverError
deriving Repr, DecidableEq

/-- HTTP status of a like response. -/
def LikeResp.status : LikeResp → Nat
  | .ok _ => 200
  | .serverError => 500

/-- POST /post/like: loads the post; with no missing-document check it
dereferences `post.likes`, so a missing post throws and the middleware
answers 500 with the store untouched.  Otherwise: if `userId` is not in
`likes` it is pushed and saved; if it is, `$pull` removes every occurrence
of `userId` and the updated document is returned. -/
def toggleLike (s : Store) (userId postId : Nat) : LikeResp × Store :=
  match findPost s.posts postId with
  | none => (.serverError, s)
  | some post =>
    if userId ∈ post.likes then
      let post1 : Post := { post with likes := post.likes.filter (fun x => x != userId) }
      (.ok post1, { s with posts := setPost s.posts post1 })
    else
      let post1 : Post := { post with likes := post.likes ++ [userId] }
      (.ok post1, { s with posts := setPost s.posts post1 })

/-- Response of DELETE /posts/:postId. -/
inductive DeleteResp where
  /-- 404 `{ error: "Post not found" }` -/
  | notFound
  /-- 403 `{ error: "You can only delete your own posts" }` -/
  | forbidden
  /-- 200 `{ message: "Post deleted successfully", postId }` -/
  | ok (postId : Nat)
deriving Repr, DecidableEq

/-- HTTP status of a delete response. -/
def DeleteResp.status : DeleteResp → Nat
  | .notFound => 404
  | .forbidden => 403
  | .ok _ => 200

/-- DELETE /posts/:postId: 404 when the post does not exist, 403 when the
supplied `userId` differs from the post's owner, otherwise
`findByIdAndDelete` removes the document. -/
def deletePost (s : Store) (postId userId : Nat) : DeleteResp × Store :=
  match findPost s.posts postId with
  | none => (.notFound, s)
  | some post =>
    if post.userId != userId then
      (.forbidden, s)
    else
      (.ok postId, { s with posts := s.posts.filter (fun q => q.id != postId) })

/-- A user as returned by GET /users: the projection
`"_id username profilePicture"`. -/
structure UserSummary where
  id : Nat
  username : String
  profilePicture : String
deriving Repr, DecidableEq

/-- GET /users?userId=: `User.find({ _id: { $ne: userId } },
"_id username profilePicture")`. -/
def listUsers (s : Store) (excludeUserId : Nat) : List UserSummary :=
  (s.users.filter (fun u => u.id != excludeUserId)).map
    (fun u => ⟨u.id, u.username, u.profilePicture⟩)

/-- Response of POST /add-friend. -/
inductive AddFriendResp where
  /-- 200 `{ success: true, message: "Friend Added" }` -/
  | ok
  /-- 500 — the handler read `user.friends` on a `null` document; the thrown
  TypeError reaches the centralized error middleware. -/
  | serverError
deriving Repr, DecidableEq

/-- HTTP status of an add-friend response. -/
def AddFriendResp.status : AddFriendResp → Nat
  | .ok => 200
  | .serverError => 500

/-- POST /add-friend: loads the user; with no missing-document check a
missing user throws (500, store untouched).  Otherwise `friendId` is pushed
onto `friends` only when absent; either way 200 is returned. -/
def addFriend (s : Store) (userId friendId : Nat) : AddFriendResp × Store :=
  match findUser s.users userId with
  | none => (.serverError, s)
  | some u =>
    if friendId ∈ u.friends then
      (.ok, s)
    else
      (.ok, { s with users := setUser s.users { u with friends := u.friends ++ [friendId] } })

/-- A friend as returned by GET /user/:userId/friends: the projection
`"username profilePicture"` attached by populate. -/
structure FriendSummary where
  username : String
  profilePicture : String
deriving Repr, DecidableEq

/-- Response of GET /user/:userId/friends. -/
inductive FriendsResp where
  /-- 404 `{ error: "User not found" }` -/
  | notFound
  /-- 200 — the populated friends list (`none` for a dangling reference). -/
  | ok (friends : List (Option FriendSummary))
deriving Repr, DecidableEq

/-- HTTP status of a friends-list response. -/
def FriendsResp.status : FriendsResp → Nat
  | .notFound => 404
  | .ok _ => 200

/-- GET /user/:userId/friends: explicit missing-user check (404), otherwise
the friends list populated to `{username, profilePicture}`. -/
def listFriends (s : Store) (userId : Nat) : FriendsResp :=
  match findUser s.users userId with
  | none => .notFound
  | some u =>
    .ok (u.friends.map (fun fid =>
      (findUser s.users fid).map (fun f => ⟨f.username, f.profilePicture⟩)))

/-- Response of PUT /users/:id/profile-picture. -/
inductive UpdatePicResp where
  /-- 404 `{ success: false, message: "User not found" }` -/
  | notFound
  /-- 200 `{ success: true, message, user }` — the updated document. -/
  | ok (user : User)
deriving Repr, DecidableEq

/-- HTTP status of a profile-picture update response. -/
def UpdatePicResp.status : UpdatePicResp → Nat
  | .notFound => 404
  | .ok _ => 200

/-- PUT /users/:id/profile-picture: `findByIdAndUpdate(id, { profilePicture },
{ new: true })` — 404 when the user does not exist, otherwise overwrite the
field and return the updated document. -/
def updateProfilePicture (s : Store) (userId : Nat) (pictureRef : String) :
    UpdatePicResp × Store :=
  match findUser s.users userId with
  | none => (.notFound, s)
  | some u =>
    let u1 : User := { u with profilePicture := pictureRef }
    (.ok u1, { s with users := setUser s.users u1 })

/-- A user as returned by GET /user/:id: `select('-password')` — every field
except the password hash. -/
structure UserSansPassword where
  id : Nat
  username : String
  email : String
  profilePicture : String
  friends : List Nat
deriving Repr, DecidableEq

/-- `select('-password')` applied to one user document. -/
def stripPassword (u : User) : UserSansPassword :=
  ⟨u.id, u.username, u.email, u.profilePicture, u.friends⟩

/-- GET /user/:id: `findById(id).select('-password')` (`none` — mongoose
`null` — when the user does not exist; the route then answers 200 with a
null body). -/
def getUserProfile (s : Store) (userId : Nat) : Option UserSansPassword :=
  (findUser s.users userId).map stripPassword

/-- Replaces every stored password hash; used to state that profile reads are
independent of the stored hashes. -/
def setAllPasswords (s : Store) (h : BcryptHash) : Store :=
  { s with users := s.users.map (fun v => { v with password := h }) }

/-- A found user carries the id it was looked up by. -/
theorem findUser_id (users : List User) (i : Nat) (u : User)
    (h : findUser users i = some u) : u.id = i := by
  unfold findUser at h
  have := List.find?_some h
  simpa using this

/-- A found post carries the id it was looked up by. -/
theorem findPost_id (posts : List Post) (i : Nat) (p : Post)
    (h : findPost posts i = some p) : p.id = i := by
  unfold findPost at h
  have := List.find?_some h
  simpa using this

/-- After saving a modified user document under the same id, looking the id
up yields the modified document. -/
theorem findUser_setUser (users : List User) (i : Nat) (u v : User)
    (h : findUser users i = some u) (hv : v.id = i) :
    findUser (setUser users v) i = some v := by
  have hcomp : ((fun w : User => w.id == i) ∘ (fun w : User => if w.id == v.id then v else w))
      = (fun w : User => w.id == i) := by
    funext w
    by_cases hw : w.id = i
    · simp [hw, hv]
    · simp [hv, hw]
  unfold findUser at h
  unfold findUser setUser
  have hx := List.find?_some h
  simp only [beq_iff_eq] at hx
  rw [List.find?_map, hcomp]
  rw [h]
  simp [hx, hv]

/-- After saving a modified post document under the same id, looking the id
up yields the modified document. -/
theorem findPost_setPost (posts : List Post) (i : Nat) (p q : Post)
    (h : findPost posts i = some p) (hq : q.id = i) :
    findPost (setPost posts q) i = some q := by
  have hcomp : ((fun w : Post => w.id == i) ∘ (fun w : Post => if w.id == q.id then q else w))
      = (fun w : Post => w.id == i) := by
    funext w
    by_cases hw : w.id = i
    · simp [hw, hq]
    · simp [hq, hw]
  unfold findPost at h
  unfold findPost setPost
  have hx := List.find?_some h
  simp only [beq_iff_eq] at hx
  rw [List.find?_map, hcomp]
  rw [h]
  simp [hx, hq]

/-- Other users survive a save of a user with a different id. -/
theorem mem_setUser_of_ne (users : List User) (v u : User)
    (hv : v ∈ users) (hne : v.id ≠ u.id) : v ∈ setUser users u := by
  unfold setUser
  have : (fun w : User => if w.id == u.id then u else w) v = v := by
    simp [hne]
  exact this ▸ List.mem_map_of_mem _ hv

/-- Claim C1: deletePost answers 404 when the post is missing, 403 when the
caller is not the owner (leaving the store, hence the post, untouched), and
removes the post exactly when the caller is the owner, leaving all other
posts and all users in place. -/
theorem deletePost_access_control (s : Store) (pid uid : Nat) :
    (findPost s.posts pid = none →
      deletePost s pid uid = (.notFound, s) ∧
      (deletePost s pid uid).1.status = 404) ∧
    (∀ post, findPost s.posts pid = some post → post.userId ≠ uid →
      deletePost s pid uid = (.forbidden, s) ∧
      (deletePost s pid uid).1.status = 403 ∧
      post ∈ (deletePost s pid uid).2.posts) ∧
    (∀ post, findPost s.posts pid = some post → post.userId = uid →
      (deletePost s pid uid).1 = .ok pid ∧
      (∀ q ∈ (deletePost s pid uid).2.posts, q.id ≠ pid) ∧
      (∀ q ∈ s.posts, q.id ≠ pid → q ∈ (deletePost s pid uid).2.posts) ∧
      (deletePost s pid uid).2.users = s.users) := by
  refine ⟨?_, ?_, ?_⟩
  · intro h
    simp [deletePost, h, DeleteResp.status]
  · intro post h hne
    have hb : (post.userId != uid) = true := by simpa using hne
    refine ⟨?_, ?_, ?_⟩
    · simp [deletePost, h, hb]
    · simp [deletePost, h, hb, DeleteResp.status]
    · simp only [deletePost, h, hb, if_pos]
      exact List.mem_of_find?_eq_some h
  · intro post h heq
    have hb : (post.userId != uid) = false := by simp [heq]
    refine ⟨?_, ?_, ?_, ?_⟩
    · simp [deletePost, h, hb]
    · intro q hq
      simp only [deletePost, h, hb] at hq
      simp only [Bool.false_eq_true, if_false] at hq
      have := List.of_mem_filter hq
      simpa using this
    · intro q hq hqne
      simp only [deletePost, h, hb, Bool.false_eq_true, if_false]
      exact List.mem_filter.mpr ⟨hq, by simpa using hqne⟩
    · simp [deletePost, h, hb]

/-- Witness for C1: in a one-post store owned by user 7, user 5 gets 403 and
the store is unchanged. -/
theorem deletePost_access_control_witness :
    deletePost ⟨[], [⟨10, 7, "c", "", [], [], Privacy.Public⟩]⟩ 10 5 =
      (.forbidden, ⟨[], [⟨10, 7, "c", "", [], [], Privacy.Public⟩]⟩) :=
  ((deletePost_access_control ⟨[], [⟨10, 7, "c", "", [], [], Privacy.Public⟩]⟩ 10 5).2.1
    ⟨10, 7, "c", "", [], [], Privacy.Public⟩ (by decide) (by decide)).1

/-- Unfolding of one like-toggle when the post exists and the caller already
likes it: `$pull` removes every occurrence of the caller's id. -/
theorem toggleLike_present (s : Store) (U pid : Nat) (post : Post)
    (h : findPost s.posts pid = some post) (hU : U ∈ post.likes) :
    toggleLike s U pid =
      (.ok { post with likes := post.likes.filter (fun x => x != U) },
       { s with posts := setPost s.posts { post with likes := post.likes.filter (fun x => x != U) } }) := by
  simp [toggleLike, h, hU]

/-- Unfolding of one like-toggle when the post exists and the caller does not
yet like it: the caller's id is pushed at the end. -/
theorem toggleLike_absent (s : Store) (U pid : Nat) (post : Post)
    (h : findPost s.posts pid = some post) (hU : U ∉ post.likes) :
    toggleLike s U pid =
      (.ok { post with likes := post.likes ++ [U] },
       { s with posts := setPost s.posts { post with likes := post.likes ++ [U] } }) := by
  simp [toggleLike, h, hU]

/-- Claim C2 (amended): a first toggle appends `U` when absent and removes
every occurrence of `U` when present; a second toggle restores the original
like-list membership (every id is in the final list iff it was in the
original), and restores the list exactly when `U` was initially absent.
When `U` was initially present the restoration is only up to order: `U` is
re-appended at the end. -/
theorem toggleLike_double_membership (s : Store) (U pid : Nat) (post : Post)
    (h : findPost s.posts pid = some post) :
    ∃ post1 post2,
      (toggleLike s U pid).1 = .ok post1 ∧
      (U ∉ post.likes → post1.likes = post.likes ++ [U]) ∧
      (U ∈ post.likes → post1.likes = post.likes.filter (fun x => x != U)) ∧
      (toggleLike (toggleLike s U pid).2 U pid).1 = .ok post2 ∧
      findPost (toggleLike (toggleLike s U pid).2 U pid).2.posts pid = some post2 ∧
      (∀ x, x ∈ post2.likes ↔ x ∈ post.likes) ∧
      (U ∉ post.likes → post2.likes = post.likes) := by
  have hid : post.id = pid := findPost_id s.posts pid post h
  by_cases hU : U ∈ post.likes
  · -- first toggle removes every occurrence of U, second re-appends it
    have h1 := toggleLike_present s U pid post h hU
    have hfind1 : findPost (toggleLike s U pid).2.posts pid =
        some { post with likes := post.likes.filter (fun x => x != U) } := by
      rw [h1]
      exact findPost_setPost s.posts pid post _ h hid
    have hUout : U ∉ ({ post with likes := post.likes.filter (fun x => x != U) } : Post).likes := by
      intro hmem
      have := List.mem_filter.mp hmem
      simp at this
    have h2 := toggleLike_absent ((toggleLike s U pid).2) U pid _ hfind1 hUout
    refine ⟨{ post with likes := post.likes.filter (fun x => x != U) },
            { post with likes := post.likes.filter (fun x => x != U) ++ [U] },
            by rw [h1], fun hc => absurd hU hc, fun _ => rfl, by rw [h2], ?_, ?_,
            fun hc => absurd hU hc⟩
    · rw [h2]
      exact findPost_setPost _ pid _ _ hfind1 hid
    · intro x
      simp only [List.mem_append, List.mem_filter, List.mem_singleton, bne_iff_ne, ne_eq,
        decide_eq_true_eq]
      constructor
      · rintro (⟨hx, _⟩ | hx)
        · exact hx
        · rw [hx]; exact hU
      · intro hx
        by_cases hxu : x = U
        · right; exact hxu
        · left; exact ⟨hx, hxu⟩
  · -- first toggle appends U, second removes it again
    have h1 := toggleLike_absent s U pid post h hU
    have hfind1 : findPost (toggleLike s U pid).2.posts pid =
        some { post with likes := post.likes ++ [U] } := by
      rw [h1]
      exact findPost_setPost s.posts pid post _ h hid
    have hUin : U ∈ ({ post with likes := post.likes ++ [U] } : Post).likes := by simp
    have hfilter : (post.likes ++ [U]).filter (fun x => x != U) = post.likes := by
      rw [List.filter_append]
      have hself : post.likes.filter (fun x => x != U) = post.likes :=
        List.filter_eq_self.mpr (fun x hx => by
          simp only [bne_iff_ne, ne_eq, decide_eq_true_eq]
          intro hxu
          exact hU (hxu ▸ hx))
      simp [hself]
    have h2 := toggleLike_present ((toggleLike s U pid).2) U pid _ hfind1 hUin
    rw [show ({ post with likes := post.likes ++ [U] } : Post).likes = post.likes ++ [U] from rfl,
      hfilter] at h2
    refine ⟨{ post with likes := post.likes ++ [U] }, { post with likes := post.likes },
            by rw [h1], fun _ => rfl, fun hc => absurd hc hU, by rw [h2], ?_,
            fun x => Iff.rfl, fun _ => rfl⟩
    rw [h2]
    exact findPost_setPost _ pid _ _ hfind1 hid

/-- Witness for C2: in a store whose post 10 has likes `[2]`, user 1 toggles
twice; the final like-list is again `[2]`. -/
theorem toggleLike_double_membership_witness :
    ∃ post2,
      (toggleLike (toggleLike ⟨[], [⟨10, 7, "c", "", [2], [], Privacy.Public⟩]⟩ 1 10).2 1 10).1
        = .ok post2 ∧ post2.likes = [2] := by
  obtain ⟨p1, p2, _, hp1, _, hsnd, _, _, hexact⟩ :=
    toggleLike_double_membership ⟨[], [⟨10, 7, "c", "", [2], [], Privacy.Public⟩]⟩ 1 10
      ⟨10, 7, "c", "", [2], [], Privacy.Public⟩ (by decide)
  refine ⟨p2, hsnd, ?_⟩
  have := hexact (by decide)
  simpa using this

/-- Claim C2 counterexample: stated as literal equality of the like-list, the
double toggle does not restore the original state.  Post 10 starts with
likes `[1, 2]`; after user 1 toggles twice the list is `[2, 1]`, not
`[1, 2]`: the pull removes 1 from the front, the re-like appends it at the
end. -/
theorem toggleLike_double_counterexample :
    Option.map Post.likes
        (findPost (toggleLike (toggleLike ⟨[], [⟨10, 7, "c", "", [1, 2], [], Privacy.Public⟩]⟩ 1 10).2 1 10).2.posts 10)
      = some [2, 1] ∧
    Option.map Post.likes
        (findPost (toggleLike (toggleLike ⟨[], [⟨10, 7, "c", "", [1, 2], [], Privacy.Public⟩]⟩ 1 10).2 1 10).2.posts 10)
      ≠ some [1, 2] := by
  decide

/-- Claim C3: signup fails with 400 on a duplicate email regardless of the
username, independently fails with 400 on a duplicate username, and
otherwise appends a new user whose password is the salted bcrypt hash of
the request password with cost factor 10, answering 201 with a plain
message (no token). -/
theorem signup_unique_fields (s : Store) (un em pw : String) (fid salt : Nat) :
    ((∃ u, u ∈ s.users ∧ u.email = em) →
      signup s un em pw fid salt = (⟨400, "Email already registered"⟩, s)) ∧
    ((∀ u ∈ s.users, u.email ≠ em) → (∃ u, u ∈ s.users ∧ u.username = un) →
      signup s un em pw fid salt = (⟨400, "Username already taken"⟩, s)) ∧
    ((∀ u ∈ s.users, u.email ≠ em) → (∀ u ∈ s.users, u.username ≠ un) →
      ∃ nu, signup s un em pw fid salt =
          (⟨201, "User registered successfully"⟩, { s with users := s.users ++ [nu] }) ∧
        nu.username = un ∧ nu.email = em ∧
        nu.password = bcryptHash pw 10 salt ∧ nu.password.cost = 10 ∧
        nu.password.salt = salt ∧ nu.password.pw = pw) := by
  refine ⟨?_, ?_, ?_⟩
  · rintro ⟨u, hu, he⟩
    have hsome : (s.users.find? (fun u => u.email == em)).isSome :=
      List.find?_isSome.mpr ⟨u, hu, by simp [he]⟩
    simp [signup, hsome]
  · intro hne
    rintro ⟨u, hu, hn⟩
    have hnone : s.users.find? (fun u => u.email == em) = none :=
      List.find?_eq_none.mpr (fun x hx => by simp [hne x hx])
    have hsome : (s.users.find? (fun u => u.username == un)).isSome :=
      List.find?_isSome.mpr ⟨u, hu, by simp [hn]⟩
    simp [signup, hnone, hsome]
  · intro hne hnu
    have hnone1 : s.users.find? (fun u => u.email == em) = none :=
      List.find?_eq_none.mpr (fun x hx => by simp [hne x hx])
    have hnone2 : s.users.find? (fun u => u.username == un) = none :=
      List.find?_eq_none.mpr (fun x hx => by simp [hnu x hx])
    exact ⟨⟨fid, un, em, bcryptHash pw 10 salt, "", []⟩,
      by simp [signup, hnone1, hnone2], rfl, rfl, rfl, rfl, rfl, rfl⟩

/-- Witness for C3: with user alice (email a@x) stored, signing up with a
fresh username but the same email is rejected with 400 and the store is
unchanged. -/
theorem signup_unique_fields_witness :
    signup ⟨[⟨1, "alice", "a@x", bcryptHash "pw" 10 0, "", []⟩], []⟩ "bob" "a@x" "q" 2 5 =
      (⟨400, "Email already registered"⟩,
       ⟨[⟨1, "alice", "a@x", bcryptHash "pw" 10 0, "", []⟩], []⟩) :=
  (signup_unique_fields ⟨[⟨1, "alice", "a@x", bcryptHash "pw" 10 0, "", []⟩], []⟩
      "bob" "a@x" "q" 2 5).1
    ⟨⟨1, "alice", "a@x", bcryptHash "pw" 10 0, "", []⟩, by decide, rfl⟩

/-- Claim C4: login answers 400 "User not found" when no stored user has the
email, 400 "Invalid credentials" when the bcrypt comparison fails, and
otherwise 200 with a signed token embedding the user's id and a 3600-second
expiry together with the full stored user record, password hash included. -/
theorem login_exact_credentials (s : Store) (em pw secret : String) :
    ((∀ u ∈ s.users, u.email ≠ em) →
      login s em pw secret = .userNotFound ∧ (login s em pw secret).status = 400) ∧
    (∀ u, s.users.find? (fun v => v.email == em) = some u →
      (bcryptCompare pw u.password = false →
        login s em pw secret = .invalidCredentials ∧ (login s em pw secret).status = 400) ∧
      (bcryptCompare pw u.password = true →
        ∃ t ru, login s em pw secret = .ok t ru ∧ (login s em pw secret).status = 200 ∧
          t.id = u.id ∧ t.expiresInSeconds = 3600 ∧ t.secret = secret ∧
          ru = u ∧ ru.password = u.password)) := by
  refine ⟨?_, ?_⟩
  · intro hne
    have hnone : s.users.find? (fun v => v.email == em) = none :=
      List.find?_eq_none.mpr (fun x hx => by simp [hne x hx])
    constructor
    · simp [login, hnone]
    · simp [login, hnone, LoginResp.status]
  · intro u hu
    refine ⟨?_, ?_⟩
    · intro hcmp
      constructor
      · simp [login, hu, hcmp]
      · simp [login, hu, hcmp, LoginResp.status]
    · intro hcmp
      refine ⟨⟨u.id, 3600, secret⟩, u, ?_, ?_, rfl, rfl, rfl, rfl, rfl⟩
      · simp [login, hu, hcmp]
      · simp [login, hu, hcmp, LoginResp.status]

/-- Witness for C4: alice logs in with the right password and receives a
token carrying her id and the 3600-second expiry plus her full record. -/
theorem login_exact_credentials_witness :
    login ⟨[⟨1, "alice", "a@x", bcryptHash "pw" 10 0, "", []⟩], []⟩ "a@x" "pw" "sec" =
      .ok ⟨1, 3600, "sec"⟩ ⟨1, "alice", "a@x", bcryptHash "pw" 10 0, "", []⟩ := by
  obtain ⟨t, ru, hok, _, ht, hexp, hsec, hru, _⟩ :=
    ((login_exact_credentials ⟨[⟨1, "alice", "a@x", bcryptHash "pw" 10 0, "", []⟩], []⟩
        "a@x" "pw" "sec").2
      ⟨1, "alice", "a@x", bcryptHash "pw" 10 0, "", []⟩ (by decide)).2 (by decide)
  rw [hok, hru]
  have : t = (⟨1, 3600, "sec"⟩ : Token) := by
    cases t
    simp only at ht hexp hsec
    simp [ht, hexp, hsec]
  rw [this]

/-- Unfolding of one add-friend call when the user exists and the friend is
already in the list: nothing is written. -/
theorem addFriend_mem (s : Store) (uid fid : Nat) (u : User)
    (h : findUser s.users uid = some u) (hmem : fid ∈ u.friends) :
    addFriend s uid fid = (.ok, s) := by
  simp [addFriend, h, hmem]

/-- Unfolding of one add-friend call when the user exists and the friend is
absent: the friend id is pushed at the end and the document saved. -/
theorem addFriend_not_mem (s : Store) (uid fid : Nat) (u : User)
    (h : findUser s.users uid = some u) (hmem : fid ∉ u.friends) :
    addFriend s uid fid =
      (.ok, { s with users := setUser s.users { u with friends := u.friends ++ [fid] } }) := by
  simp [addFriend, h, hmem]

/-- Claim C5 (amended): for an existing user `U`, addFriend appends `F` to
`U`'s friends exactly when `F` is absent; when `U`'s list initially holds at
most one occurrence of `F` (the data-model invariant), two calls with the
same `F` leave exactly one occurrence; and every record of a user with a
different id — in particular `F`'s own record whenever `F ≠ U.id` — is still
in the store untouched after both calls. -/
theorem addFriend_idempotent_oneway (s : Store) (uid fid : Nat) (u : User)
    (h : findUser s.users uid = some u) :
    (fid ∈ u.friends → addFriend s uid fid = (.ok, s)) ∧
    (fid ∉ u.friends →
      addFriend s uid fid =
        (.ok, { s with users := setUser s.users { u with friends := u.friends ++ [fid] } })) ∧
    (u.friends.count fid ≤ 1 →
      ∃ u2, findUser (addFriend (addFriend s uid fid).2 uid fid).2.users uid = some u2 ∧
        u2.friends.count fid = 1) ∧
    (∀ v ∈ s.users, v.id ≠ uid →
      v ∈ (addFriend (addFriend s uid fid).2 uid fid).2.users) := by
  have hid : u.id = uid := findUser_id s.users uid u h
  by_cases hmem : fid ∈ u.friends
  · -- already a friend: both calls leave the store untouched
    have h1 : addFriend s uid fid = (.ok, s) := addFriend_mem s uid fid u h hmem
    have h2 : addFriend (addFriend s uid fid).2 uid fid = (.ok, (addFriend s uid fid).2) := by
      rw [h1]
      exact addFriend_mem s uid fid u h hmem
    refine ⟨fun _ => h1, fun hc => absurd hmem hc, ?_, ?_⟩
    · intro hcount
      refine ⟨u, by rw [h2, h1]; exact h, ?_⟩
      have hpos : 0 < u.friends.count fid := List.count_pos_iff.mpr hmem
      omega
    · intro v hv _
      rw [h2, h1]
      exact hv
  · -- not yet a friend: the first call appends, the second is a no-op
    have h1 := addFriend_not_mem s uid fid u h hmem
    have hfind1 : findUser (addFriend s uid fid).2.users uid =
        some { u with friends := u.friends ++ [fid] } := by
      rw [h1]
      exact findUser_setUser s.users uid u _ h hid
    have hmem1 : fid ∈ ({ u with friends := u.friends ++ [fid] } : User).friends := by simp
    have h2 : addFriend (addFriend s uid fid).2 uid fid = (.ok, (addFriend s uid fid).2) :=
      addFriend_mem ((addFriend s uid fid).2) uid fid _ hfind1 hmem1
    refine ⟨fun hc => absurd hc hmem, fun _ => h1, ?_, ?_⟩
    · intro hcount
      refine ⟨{ u with friends := u.friends ++ [fid] }, by rw [h2]; exact hfind1, ?_⟩
      have hzero : u.friends.count fid = 0 := List.count_eq_zero.mpr hmem
      simp [List.count_append, hzero]
    · intro v hv hvne
      rw [h2, h1]
      exact mem_setUser_of_ne s.users v _ hv (by simpa [hid] using hvne)

/-- Witness for C5: user 1 (friends `[]`) adds user 2 twice; afterwards the
stored friends list holds exactly one occurrence of 2, and user 2's own
record is still present unchanged. -/
theorem addFriend_idempotent_oneway_witness :
    (∃ u2, findUser (addFriend (addFriend
        ⟨[⟨1, "a", "a@x", bcryptHash "p" 10 0, "", []⟩,
          ⟨2, "b", "b@x", bcryptHash "q" 10 0, "", []⟩], []⟩ 1 2).2 1 2).2.users 1 = some u2 ∧
      u2.friends.count 2 = 1) ∧
    (⟨2, "b", "b@x", bcryptHash "q" 10 0, "", []⟩ : User) ∈
      (addFriend (addFriend
        ⟨[⟨1, "a", "a@x", bcryptHash "p" 10 0, "", []⟩,
          ⟨2, "b", "b@x", bcryptHash "q" 10 0, "", []⟩], []⟩ 1 2).2 1 2).2.users := by
  obtain ⟨-, -, hcnt, hframe⟩ :=
    addFriend_idempotent_oneway
      ⟨[⟨1, "a", "a@x", bcryptHash "p" 10 0, "", []⟩,
        ⟨2, "b", "b@x", bcryptHash "q" 10 0, "", []⟩], []⟩ 1 2
      ⟨1, "a", "a@x", bcryptHash "p" 10 0, "", []⟩ (by decide)
  exact ⟨hcnt (by decide), hframe ⟨2, "b", "b@x", bcryptHash "q" 10 0, "", []⟩ (by decide) (by decide)⟩

/-- Claim C5 counterexample: the claim as stated fails in two ways.  With a
stored friends list `[2, 2]` (duplicates are not ruled out by the code, and
the claim quantifies over every stored user), adding friend 2 twice leaves
two occurrences, not exactly one.  And for `F = U.id` (self-add), addFriend
1 1 rewrites user 1's — that is, `F`'s own — friends list from `[]` to
`[1]`, so `F`'s list is not "never modified". -/
theorem addFriend_counterexample :
    Option.map (fun u => u.friends.count 2)
        (findUser (addFriend (addFriend
          ⟨[⟨1, "a", "a@x", bcryptHash "p" 10 0, "", [2, 2]⟩], []⟩ 1 2).2 1 2).2.users 1)
      = some 2 ∧
    Option.map User.friends
        (findUser (addFriend ⟨[⟨1, "a", "a@x", bcryptHash "p" 10 0, "", []⟩], []⟩ 1 1).2.users 1)
      = some [1] := by
  decide

/-- Claim C6: with at least one stored user, GET /users returns exactly the
stored users whose id differs from `excludeUserId`, each projected to
`{id, username, profilePicture}`; the excluded id never appears. -/
theorem listUsers_excludes (s : Store) (ex : Nat) (hne : s.users ≠ []) :
    (∀ r ∈ listUsers s ex, r.id ≠ ex) ∧
    (∀ u ∈ s.users, u.id ≠ ex →
      (⟨u.id, u.username, u.profilePicture⟩ : UserSummary) ∈ listUsers s ex) ∧
    (∀ r ∈ listUsers s ex, ∃ u, u ∈ s.users ∧ u.id ≠ ex ∧
      r = ⟨u.id, u.username, u.profilePicture⟩) := by
  refine ⟨?_, ?_, ?_⟩
  · intro r hr
    simp only [listUsers, List.mem_map, List.mem_filter, bne_iff_ne, ne_eq,
      decide_eq_true_eq] at hr
    obtain ⟨u, ⟨-, hu⟩, hru⟩ := hr
    rw [← hru]
    exact hu
  · intro u hu hune
    simp only [listUsers, List.mem_map, List.mem_filter, bne_iff_ne, ne_eq,
      decide_eq_true_eq]
    exact ⟨u, ⟨hu, hune⟩, rfl⟩
  · intro r hr
    simp only [listUsers, List.mem_map, List.mem_filter, bne_iff_ne, ne_eq,
      decide_eq_true_eq] at hr
    obtain ⟨u, ⟨hu, hune⟩, hru⟩ := hr
    exact ⟨u, hu, hune, hru.symm⟩

/-- Witness for C6: with users 1 and 2 stored, excluding id 1 returns exactly
the projection of user 2. -/
theorem listUsers_excludes_witness :
    (⟨2, "b", ""⟩ : UserSummary) ∈
      listUsers ⟨[⟨1, "a", "a@x", bcryptHash "p" 10 0, "", []⟩,
                  ⟨2, "b", "b@x", bcryptHash "q" 10 0, "", []⟩], []⟩ 1 :=
  ((listUsers_excludes ⟨[⟨1, "a", "a@x", bcryptHash "p" 10 0, "", []⟩,
      ⟨2, "b", "b@x", bcryptHash "q" 10 0, "", []⟩], []⟩ 1 (by decide)).2.1
    ⟨2, "b", "b@x", bcryptHash "q" 10 0, "", []⟩ (by decide) (by decide))

/-- Claim C7: updating the profile picture of a missing user answers 404;
for an existing user the field is overwritten and the updated record
returned, while the user's other fields, every other user's record and the
whole post collection are unchanged. -/
theorem updateProfilePicture_frame (s : Store) (uid : Nat) (pic : String) :
    (findUser s.users uid = none →
      updateProfilePicture s uid pic = (.notFound, s) ∧
      (updateProfilePicture s uid pic).1.status = 404) ∧
    (∀ u, findUser s.users uid = some u →
      updateProfilePicture s uid pic =
        (.ok { u with profilePicture := pic },
         { s with users := setUser s.users { u with profilePicture := pic } }) ∧
      ({ u with profilePicture := pic } : User).profilePicture = pic ∧
      ({ u with profilePicture := pic } : User).id = u.id ∧
      ({ u with profilePicture := pic } : User).username = u.username ∧
      ({ u with profilePicture := pic } : User).email = u.email ∧
      ({ u with profilePicture := pic } : User).password = u.password ∧
      ({ u with profilePicture := pic } : User).friends = u.friends ∧
      (updateProfilePicture s uid pic).2.posts = s.posts ∧
      (∀ v ∈ s.users, v.id ≠ uid → v ∈ (updateProfilePicture s uid pic).2.users) ∧
      findUser (updateProfilePicture s uid pic).2.users uid =
        some { u with profilePicture := pic }) := by
  refine ⟨?_, ?_⟩
  · intro h
    constructor
    · simp [updateProfilePicture, h]
    · simp [updateProfilePicture, h, UpdatePicResp.status]
  · intro u h
    have hid : u.id = uid := findUser_id s.users uid u h
    have hstep : updateProfilePicture s uid pic =
        (.ok { u with profilePicture := pic },
         { s with users := setUser s.users { u with profilePicture := pic } }) := by
      simp [updateProfilePicture, h]
    refine ⟨hstep, rfl, rfl, rfl, rfl, rfl, rfl, by rw [hstep], ?_, ?_⟩
    · intro v hv hvne
      rw [hstep]
      exact mem_setUser_of_ne s.users v _ hv (by simpa [hid] using hvne)
    · rw [hstep]
      exact findUser_setUser s.users uid u _ h hid

/-- Witness for C7: updating user 1's picture to "p.png" stores the new
reference, keeps the other fields of user 1, keeps user 2's record and
keeps the posts. -/
theorem updateProfilePicture_frame_witness :
    updateProfilePicture ⟨[⟨1, "a", "a@x", bcryptHash "p" 10 0, "", []⟩,
        ⟨2, "b", "b@x", bcryptHash "q" 10 0, "", []⟩], []⟩ 1 "p.png" =
      (.ok ⟨1, "a", "a@x", bcryptHash "p" 10 0, "p.png", []⟩,
       ⟨[⟨1, "a", "a@x", bcryptHash "p" 10 0, "p.png", []⟩,
         ⟨2, "b", "b@x", bcryptHash "q" 10 0, "", []⟩], []⟩) := by
  have hstep :=
    ((updateProfilePicture_frame ⟨[⟨1, "a", "a@x", bcryptHash "p" 10 0, "", []⟩,
        ⟨2, "b", "b@x", bcryptHash "q" 10 0, "", []⟩], []⟩ 1 "p.png").2
      ⟨1, "a", "a@x", bcryptHash "p" 10 0, "", []⟩ (by decide)).1
  rw [hstep]
  decide

/-- Claim C8: GET /posts returns one entry per stored post — no privacy
filtering, no pagination, no caller parameter — and every stored post,
whatever its privacy value, appears with all its fields and its owner
expanded to the owner's username. -/
theorem listPosts_returns_all (s : Store) :
    (listPosts s).length = s.posts.length ∧
    ∀ p ∈ s.posts, ∃ q, q ∈ listPosts s ∧
      q.id = p.id ∧ q.content = p.content ∧ q.image = p.image ∧
      q.likes = p.likes ∧ q.comments = p.comments ∧ q.privacy = p.privacy ∧
      q.owner = (findUser s.users p.userId).map (fun u => ⟨u.username⟩) := by
  refine ⟨List.length_map s.posts _, ?_⟩
  intro p hp
  exact ⟨populatePost s.users p, List.mem_map_of_mem _ hp, rfl, rfl, rfl, rfl, rfl, rfl, rfl⟩

/-- Witness for C8: a Private post is listed to any caller, with its owner
expanded to the username alice. -/
theorem listPosts_returns_all_witness :
    ∃ q, q ∈ listPosts ⟨[⟨7, "alice", "a@x", bcryptHash "p" 10 0, "", []⟩],
        [⟨10, 7, "secret", "", [], [], Privacy.Private⟩]⟩ ∧
      q.privacy = Privacy.Private ∧ q.owner = some ⟨"alice"⟩ := by
  obtain ⟨q, hq, -, -, -, -, -, hpriv, howner⟩ :=
    (listPosts_returns_all ⟨[⟨7, "alice", "a@x", bcryptHash "p" 10 0, "", []⟩],
        [⟨10, 7, "secret", "", [], [], Privacy.Private⟩]⟩).2
      ⟨10, 7, "secret", "", [], [], Privacy.Private⟩ (by decide)
  exact ⟨q, hq, hpriv, by rw [howner]; decide⟩

/-- Finding a user commutes with scrubbing every password: the lookup only
inspects ids. -/
theorem findUser_scrub (users : List User) (i : Nat) (hsh : BcryptHash) :
    findUser (users.map (fun v => { v with password := hsh })) i =
      (findUser users i).map (fun v => { v with password := hsh }) := by
  unfold findUser
  rw [List.find?_map]
  rfl

/-- Claim C9: for an existing user, GET /user/:id returns the record
projected by `select('-password')` — id, username, email, profilePicture
and friends, no password field — and the response is unchanged if every
stored password hash is replaced by an arbitrary one, so no successful
response depends on (or can contain) a password hash. -/
theorem getUserProfile_no_password (s : Store) (uid : Nat) (u : User)
    (h : findUser s.users uid = some u) :
    getUserProfile s uid = some ⟨u.id, u.username, u.email, u.profilePicture, u.friends⟩ ∧
    ∀ hsh : BcryptHash, getUserProfile (setAllPasswords s hsh) uid = getUserProfile s uid := by
  constructor
  · simp [getUserProfile, h, stripPassword]
  · intro hsh
    unfold getUserProfile setAllPasswords
    simp only [findUser_scrub, Option.map_map]
    rfl

/-- Witness for C9: alice's profile is returned without the password field,
and scrubbing the stored hash leaves the response identical. -/
theorem getUserProfile_no_password_witness :
    getUserProfile ⟨[⟨1, "alice", "a@x", bcryptHash "pw" 10 0, "", [2]⟩], []⟩ 1 =
      some ⟨1, "alice", "a@x", "", [2]⟩ ∧
    getUserProfile (setAllPasswords ⟨[⟨1, "alice", "a@x", bcryptHash "pw" 10 0, "", [2]⟩], []⟩
        (bcryptHash "other" 10 9)) 1 =
      getUserProfile ⟨[⟨1, "alice", "a@x", bcryptHash "pw" 10 0, "", [2]⟩], []⟩ 1 := by
  have hmain :=
    getUserProfile_no_password ⟨[⟨1, "alice", "a@x", bcryptHash "pw" 10 0, "", [2]⟩], []⟩ 1
      ⟨1, "alice", "a@x", bcryptHash "pw" 10 0, "", [2]⟩ (by decide)
  exact ⟨hmain.1, hmain.2 (bcryptHash "other" 10 9)⟩

/-- Claim C10: on a missing post, POST /post/like has no explicit check — the
handler dereferences the null document, the thrown error reaches the
centralized middleware and the response is 500 (not 404) with the store
untouched; likewise POST /add-friend on a missing user.  By contrast,
DELETE /posts/:postId and GET /user/:userId/friends do check and answer
404. -/
theorem missing_record_behavior (s : Store) (uid pid fid : Nat) :
    (findPost s.posts pid = none →
      toggleLike s uid pid = (.serverError, s) ∧
      (toggleLike s uid pid).1.status = 500 ∧
      (toggleLike s uid pid).1.status ≠ 404 ∧
      deletePost s pid uid = (.notFound, s) ∧
      (deletePost s pid uid).1.status = 404) ∧
    (findUser s.users uid = none →
      addFriend s uid fid = (.serverError, s) ∧
      (addFriend s uid fid).1.status = 500 ∧
      (addFriend s uid fid).1.status ≠ 404 ∧
      listFriends s uid = .notFound ∧
      (listFriends s uid).status = 404) := by
  constructor
  · intro h
    refine ⟨?_, ?_, ?_, ?_, ?_⟩
    · simp [toggleLike, h]
    · simp [toggleLike, h, LikeResp.status]
    · simp [toggleLike, h, LikeResp.status]
    · simp [deletePost, h]
    · simp [deletePost, h, DeleteResp.status]
  · intro h
    refine ⟨?_, ?_, ?_, ?_, ?_⟩
    · simp [addFriend, h]
    · simp [addFriend, h, AddFriendResp.status]
    · simp [addFriend, h, AddFriendResp.status]
    · simp [listFriends, h]
    · simp [listFriends, h, FriendsResp.status]

/-- Witness for C10: on the empty store, liking post 10 and befriending from
user 1 both answer 500 leaving the store empty, while deleting post 10 and
listing user 1's friends answer 404. -/
theorem missing_record_behavior_witness :
    toggleLike ⟨[], []⟩ 1 10 = (.serverError, ⟨[], []⟩) ∧
    addFriend ⟨[], []⟩ 1 2 = (.serverError, ⟨[], []⟩) ∧
    deletePost ⟨[], []⟩ 10 1 = (.notFound, ⟨[], []⟩) ∧
    listFriends ⟨[], []⟩ 1 = .notFound := by
  obtain ⟨hpost, huser⟩ := missing_record_behavior ⟨[], []⟩ 1 10 2
  obtain ⟨h1, -, -, h2, -⟩ := hpost (by decide)
  obtain ⟨h3, -, -, h4, -⟩ := huser (by decide)
  exact ⟨h1, h3, h2, h4⟩
